import Mathlib

/-!
# X-API: verification of the username-propagation and authorization logic

Shallow embedding of the X-API micro-blogging service (Node/Express/Mongoose)
into Lean 4.  Documents are embedded as structures, the Mongo collections as
lists, and each route handler as a function from the request data and the
store state to an HTTP status together with the resulting store state.

Conventions used throughout:

* Mongo ObjectIds are embedded as `Nat`.
* `Date` values (`createdAt`, comment `datetime`) are embedded as `Nat`
  millisecond timestamps.
* A JS `parseInt(q)` result is embedded as `Option Int` (`none` models `NaN`,
  i.e. an absent or non-numeric query parameter).
* Express sends at most one response per request on the wire; when a handler
  calls `res.send` twice, the *first* status is the observable one and the
  second call throws.  Handlers are therefore embedded as returning the first
  status sent, while the store mutations the code performs after that first
  response are still applied, exactly as the JS keeps executing.
-/

namespace XApi

/-- An embedded comment, as in the `comments` array of `tweet.model.js`:
`author` (ObjectId), denormalized `username`, `content`, `datetime`. -/
structure Comment where
  id : Nat
  author : Nat
  username : String
  content : String
  datetime : Nat
deriving DecidableEq, Repr

/-- A tweet document (`tweet.model.js`): `author` (ObjectId ref User),
denormalized `username`, `content`, `pictures`, `videos`, embedded
`comments`, and the `createdAt` timestamp added by `timestamps: true`. -/
structure Tweet where
  id : Nat
  author : Nat
  username : String
  content : String
  pictures : List String
  videos : List String
  comments : List Comment
  createdAt : Nat
deriving DecidableEq, Repr

/-- A JWT as produced by `jwt.sign({ _id }, process.env.JWT_SECRET)`:
a signed binding of the user's id to the signing secret.  Equality of
`AuthToken` values embeds equality of the exact token strings. -/
structure AuthToken where
  uid : Nat
  secret : String
deriving DecidableEq, Repr

/-- A user document (`user.model.js`): unique `username`, `password`
(stored plaintext until the pre-save hook hashes it), `email`, the
`tokens` array of active sessions, and the optional `avatar`. -/
structure User where
  id : Nat
  username : String
  password : String
  email : String
  tokens : List AuthToken
  avatar : Option String
deriving DecidableEq, Repr

/-- The persistent store: the `users` and `tweets` collections. -/
structure Store where
  users : List User
  tweets : List Tweet
deriving DecidableEq, Repr

/-! ## String primitives

The JS string operations the routes rely on (`trim`, `toLowerCase`,
`includes`, `split`) are embedded structurally over the character list of
the string, so that every handler is executable by kernel reduction. -/

/-- JS `trim` whitespace (the characters occurring in practice). -/
def isWsChar (ch : Char) : Bool :=
  ch == ' ' || ch == '\t' || ch == '\n' || ch == '\r'

/-- JS `s.trim()`. -/
def strTrim (s : String) : String :=
  ⟨((s.data.dropWhile isWsChar).reverse.dropWhile isWsChar).reverse⟩

/-- ASCII lower-casing of one character. -/
def lowerChar (ch : Char) : Char :=
  if 'A' ≤ ch && ch ≤ 'Z' then Char.ofNat (ch.toNat + 32) else ch

/-- JS `s.toLowerCase()` (ASCII). -/
def strToLower (s : String) : String :=
  ⟨s.data.map lowerChar⟩

/-- `pat` is a prefix of `l`. -/
def prefOf : List Char → List Char → Bool
  | [], _ => true
  | _ :: _, [] => false
  | a :: as, b :: bs => a == b && prefOf as bs

/-- `pat` occurs as a contiguous run inside `l`. -/
def hasSubList (pat : List Char) : List Char → Bool
  | [] => prefOf pat []
  | c :: tl => prefOf pat (c :: tl) || hasSubList pat tl

/-- JS `s.includes(pat)`. -/
def containsSub (s pat : String) : Bool :=
  hasSubList pat.data s.data

/-- JS `s.split(sep)` for a one-character separator. -/
def splitOnChar (sep : Char) (l : List Char) : List (List Char) :=
  l.foldr
    (fun c acc =>
      if c == sep then [] :: acc
      else
        match acc with
        | [] => [[c]]
        | g :: gs => (c :: g) :: gs)
    [[]]

/-! ## External primitives (out of scope per the spec, modelled at their
interface boundary) -/

/-- Modelled from the spec: `validator.isEmail` is an external validation
primitive (out of scope, specified only as "validated as an email address");
modelled as one `@` separating a nonempty local part from a dotted domain
with nonempty labels.  No claim depends on its internals. -/
def isEmail (s : String) : Bool :=
  match splitOnChar '@' s.data with
  | [lp, dom] =>
      !lp.isEmpty && !dom.isEmpty && (splitOnChar '.' dom).length ≥ 2 &&
        (splitOnChar '.' dom).all (fun part => !part.isEmpty)
  | _ => false

/-- Modelled from the spec: `bcrypt.hash(p, 8)` is an external one-way salted
hashing primitive (out of scope); modelled as an injective tagging function.
No claim depends on its internals. -/
def bhash (p : String) : String := "$2b$08$" ++ p

/-- `jwt.verify(token, secret)`: succeeds with the embedded `_id` exactly
when the token was signed with this secret. -/
def jwtVerify (secret : String) (t : AuthToken) : Option Nat :=
  if t.secret = secret then some t.uid else none

/-! ## User schema validation (`user.model.js`)

Mongoose runs document validation as part of `save()`, *before* the
user-registered pre-save hooks (hashing, propagation).  The schema requires
all three string fields (empty strings fail `required`), `minLength: 8` on
the (trimmed) password, the custom "no `password` substring" validator, and
the custom `validator.isEmail` check. -/

/-- Schema validation of a user document exactly as `user.model.js` declares
it: `required` on `username`/`password`/`email`, `minLength: 8` on
`password`, the case-insensitive "please use a stronger password" substring
validator, and the email-format validator. -/
def validateUser (u : User) : Bool :=
  u.username != "" &&
  u.password != "" &&
  decide (8 ≤ u.password.length) &&
  !(containsSub (strToLower u.password) "password") &&
  u.email != "" &&
  isEmail u.email

/-! ## Consistency Propagator (`user.model.js` pre-save hooks (3) and (4)) -/

/-- Hook (3) per tweet: `Tweet.updateMany({ author: uid }, { $set:
{ username: b } })` rewrites the denormalized username of each tweet
authored by `uid`. -/
def tweetRename (uid : Nat) (b : String) (t : Tweet) : Tweet :=
  if t.author = uid then { t with username := b } else t

/-- Hook (4) per comment (`arrayFilters: [{ "elem.author": uid }]`):
rewrite the denormalized username of a comment authored by `uid`. -/
def commentRename (uid : Nat) (b : String) (c : Comment) : Comment :=
  if c.author = uid then { c with username := b } else c

/-- Hook (4) per tweet: `Tweet.updateMany({ "comments.author": uid }, ...)`
matches the tweets having at least one comment by `uid` and rewrites all of
that tweet's comments by `uid` via the array filter. -/
def tweetCommentsRename (uid : Nat) (b : String) (t : Tweet) : Tweet :=
  if t.comments.any (fun c => c.author == uid) then
    { t with comments := t.comments.map (commentRename uid b) }
  else t

/-- The Consistency Propagator on a username change: pre-save hook (3)
(bulk rewrite of the user's tweets) followed by pre-save hook (4) (bulk
rewrite of the user's embedded comments across all tweets). -/
def onUsernameChanged (uid : Nat) (b : String) (tweets : List Tweet) : List Tweet :=
  (tweets.map (tweetRename uid b)).map (tweetCommentsRename uid b)

/-! ## Saving a user document (`await user.save()`)

Order of effects in Mongoose for `save()` on an existing document:
1. schema validation (a `ValidationError` aborts the save, nothing ran yet);
2. the pre-save hooks in registration order: hash the password when the
   `password` path is modified; run the two propagation `updateMany` bulk
   writes when the `username` path is modified (these hit the tweets
   collection *before* the user document itself is written);
3. the write of the user document, at which point the unique index on
   `username` can still reject it with a duplicate-key error — the tweet
   rewrites of step 2 are not rolled back in that case.

A path counts as modified exactly when its new value differs from the old
one (Mongoose skips marking on assignment of an equal primitive). -/

structure SaveResult where
  ok : Bool
  store : Store
deriving Repr

/-- `save()` on the existing document `old` updated to `u1`. -/
def saveUser (store : Store) (old u1 : User) : SaveResult :=
  if !(validateUser u1) then ⟨false, store⟩
  else
    let u2 := if u1.password != old.password
      then { u1 with password := bhash u1.password } else u1
    let tweets1 := if u1.username != old.username
      then onUsernameChanged old.id u1.username store.tweets else store.tweets
    let store1 : Store := { store with tweets := tweets1 }
    if store.users.any (fun v => v.id != old.id && v.username == u1.username) then
      ⟨false, store1⟩
    else
      ⟨true, { store1 with
        users := store1.users.map (fun v => if v.id = old.id then u2 else v) }⟩

/-- `User.findById(uid)` / `User.findOne({ _id: uid })`. -/
def findUser (users : List User) (uid : Nat) : Option User :=
  users.find? (fun u => u.id == uid)

/-! ## Identity Store route handlers (`user.router.js`) -/

/-- The allow-list of the `PATCH /users/me` handler. -/
def allowedUserUpdates : List String := ["username", "password", "email", "avatar"]

/-- `user[update] = req.body[update]` for one body key.  The schema setters
apply: `trim` on `username`/`password`/`avatar`, `trim` + `lowercase` on
`email`.  A key outside the schema paths is ignored by Mongoose strict
mode. -/
def applyUserUpdate (u : User) (kv : String × String) : User :=
  if kv.1 = "username" then { u with username := strTrim kv.2 }
  else if kv.1 = "password" then { u with password := strTrim kv.2 }
  else if kv.1 = "email" then { u with email := strToLower (strTrim kv.2) }
  else if kv.1 = "avatar" then { u with avatar := some (strTrim kv.2) }
  else u

/-- `PATCH /users/me`.  The handler checks the body keys against
`allowedUserUpdates` and sends `400 Attempt to update invalid fields` when
one is outside the list — but it does *not* return there, so execution
continues into the `try` block, applies every update and saves.  The first
status sent is the observable response; a failing `save()` is caught and
answered `500` (which on the wire loses to an earlier 400). -/
def updateProfileHandler (store : Store) (uid : Nat)
    (patch : List (String × String)) : Nat × Store :=
  let updates := patch.map Prod.fst
  let isValidOperation := updates.all (fun k => allowedUserUpdates.contains k)
  let err400 : Option Nat := if isValidOperation then none else some 400
  match findUser store.users uid with
  | none => (err400.getD 404, store)
  | some u =>
      let u1 := patch.foldl applyUserUpdate u
      let r := saveUser store u u1
      if r.ok then (err400.getD 200, r.store) else (err400.getD 500, r.store)

/-- `POST /users`: `new User(req.body)` (schema setters trim the fields and
lowercase the email, `tokens` starts empty), then `save()` — validation,
password hashing, the propagation hooks (no-ops: a fresh id authored
nothing), the insert guarded by the unique index on `username` — then
`generateAuthToken()` appends a freshly signed token and saves again.
Any error is answered `400`. -/
def registerHandler (store : Store) (uid : Nat) (secret : String)
    (username pw email : String) : Nat × Store :=
  let u : User :=
    { id := uid, username := strTrim username, password := strTrim pw,
      email := strToLower (strTrim email), tokens := [], avatar := none }
  if !(validateUser u) then (400, store)
  else if store.users.any (fun v => v.username == u.username) then (400, store)
  else
    let u1 := { u with password := bhash u.password }
    let tok : AuthToken := { uid := uid, secret := secret }
    let u2 := { u1 with tokens := u1.tokens ++ [tok] }
    (201, { store with users := store.users ++ [u2] })

/-- `DELETE /users/me`: `req.user.remove()` fires the pre-remove hook
`Tweet.deleteMany({ author: this._id })` and then removes the user
document itself.  Comments by this user embedded in *other* users' tweets
are not touched. -/
def deleteUserHandler (store : Store) (uid : Nat) : Store :=
  { users := store.users.filter (fun u => u.id != uid),
    tweets := store.tweets.filter (fun t => t.author != uid) }

/-! ## Authorization Gate (`middleware/auth.js`) and logout -/

/-- `authMiddle`: strip the bearer token, `jwt.verify` it against the
signing secret, then `User.findOne({ _id: decoded._id, "tokens.token":
token })`.  A `none` result is the `401 Authorization Failed` response
(`AuthUnresolved`). -/
def authMiddle (secret : String) (users : List User) (t : AuthToken) : Option User :=
  match jwtVerify secret t with
  | none => none
  | some uid => users.find? (fun u => u.id == uid && u.tokens.contains t)

/-- `POST /users/logout`: filter out exactly the presented token from
`req.user.tokens` and `save()`; `200` on success, `500` when the save
fails. -/
def logoutHandler (store : Store) (u : User) (t : AuthToken) : Nat × Store :=
  let u1 := { u with tokens := u.tokens.filter (fun tk => tk != t) }
  let r := saveUser store u u1
  if r.ok then (200, r.store) else (500, r.store)

/-! ## Stable sorting

Both the store's `sort()` and the V8 `Array.prototype.sort` used on the
comments array are stable; embedded as stable insertion sort with a boolean
"may come first" comparator. -/

/-- Insert `x` into `l` before the first `y` with `le x y`; on ties the
inserted (originally later) element stays behind, so the sort is stable. -/
def insertLe {α : Type} (le : α → α → Bool) (x : α) : List α → List α
  | [] => [x]
  | y :: ys => if le x y then x :: y :: ys else y :: insertLe le x ys

/-- Stable insertion sort with comparator `le`. -/
def sortLe {α : Type} (le : α → α → Bool) : List α → List α
  | [] => []
  | x :: xs => insertLe le x (sortLe le xs)

/-! ## Content Store route handlers (`tweet.router.js`) -/

/-- JS `parseInt(q) || d`: an absent or non-numeric parameter (`NaN`) and a
parse result of `0` are falsy and fall back to the default; every other
parsed integer — negative ones included — passes through. -/
def orDefault (v : Option Int) (d : Int) : Int :=
  match v with
  | none => d
  | some n => if n = 0 then d else n

/-- The sort specification of `GET /tweets`: with `?sortBy=field:dir` the
string is split on `:` (a missing direction part compares unequal to
`"desc"` and yields ascending); without it the default is
`{ createdAt: -1 }`. -/
def sortSpecOf (sortByQ : Option String) : String × Int :=
  match sortByQ with
  | some s =>
      let parts := (splitOnChar ':' s.data).map (fun cs => String.mk cs)
      (parts.headD "", if parts.getD 1 "" = "desc" then -1 else 1)
  | none => ("createdAt", -1)

/-- The store's comparator for a single-field sort specification.  The
schema fields the routes can meaningfully sort on are the timestamp and the
denormalized username; a specification naming any other field compares all
documents equal (missing keys), which keeps the stored order. -/
def tweetKeyLe (field : String) (dir : Int) (a b : Tweet) : Bool :=
  if field = "createdAt" then
    (if dir = -1 then decide (b.createdAt ≤ a.createdAt)
     else decide (a.createdAt ≤ b.createdAt))
  else if field = "username" then
    (if dir = -1 then decide (b.username ≤ a.username)
     else decide (a.username ≤ b.username))
  else true

/-- The store applies `sort`, then `skip`, then `limit`, independently of
the `.limit(..).skip(..)` chaining order in the handler.  A negative limit
returns up to `|limit|` documents (single batch). -/
def mongoWindow (l : List Tweet) (limit skip : Int) : List Tweet :=
  (l.drop skip.toNat).take limit.natAbs

/-- `GET /tweets`: optional `username` filter, sort specification from
`sortBy`, `limit = parseInt(req.query.limit) || 10`,
`skip = parseInt(req.query.skip) || 0`. -/
def listTweetsHandler (tweets : List Tweet) (sortByQ usernameQ : Option String)
    (limitQ skipQ : Option Int) : List Tweet :=
  let spec := sortSpecOf sortByQ
  let limit := orDefault limitQ 10
  let skip := orDefault skipQ 0
  let base := match usernameQ with
    | some un => tweets.filter (fun t => t.username == un)
    | none => tweets
  mongoWindow (sortLe (tweetKeyLe spec.1 spec.2) base) limit skip

/-- The comparator passed to `tweet.comments.sort`: keep `a` before `b`
when `a.datetime - b.datetime ≤ 0` (ascending, `sortOrder = 1`) or
`b.datetime - a.datetime ≤ 0` (descending, `sortOrder = -1`). -/
def commentDatetimeLe (sortOrder : Int) (a b : Comment) : Bool :=
  if sortOrder = 1 then decide (a.datetime ≤ b.datetime)
  else decide (b.datetime ≤ a.datetime)

/-- The `sentArray` loop of `GET /tweets/:tweetId/comments`:

```js
if (limit > commentsArray.length) limit = commentsArray.length;
for (let i = skip; i < limit; i++) sentArray[i] = commentsArray[i];
```

The loop writes indices `skip .. limit-1` of a fresh array, so with
`0 < skip < limit` the indices below `skip` stay holes, which `res.send`
serializes as `null` (embedded as `none`); with `skip ≥ limit` nothing is
written and the array is empty. -/
def spliceWindow (l : List Comment) (limit skip : Int) : List (Option Comment) :=
  let lim : Int := if limit > (l.length : Int) then (l.length : Int) else limit
  if lim ≤ skip then []
  else (List.range lim.toNat).map
    (fun (i : Nat) => if (i : Int) < skip then none else l.get? i)

/-- `GET /tweets/:tweetId/comments`.  The handler reads
`req.params.sortByOrder`, but on this route the params object only carries
`tweetId`; the query-string value (the `sortByOrderQ` argument) is never
consulted, the read yields `undefined`, the comparison with `"desc"` is
false and `sortOrder` is `1` on every request. -/
def listCommentsHandler (tweets : List Tweet) (tid : Nat)
    (sortByOrderQ : Option String) (limitQ skipQ : Option Int) :
    Nat × List (Option Comment) :=
  match tweets.find? (fun t => t.id == tid) with
  | none => (404, [])
  | some t =>
      let paramsSortByOrder : Option String := none
      let sortOrder : Int := if paramsSortByOrder == some "desc" then -1 else 1
      let commentsArray := sortLe (commentDatetimeLe sortOrder) t.comments
      let limit := orDefault limitQ 10
      let skip := orDefault skipQ 0
      (200, spliceWindow commentsArray limit skip)

/-- The ownership-scoped lookup shared by `PATCH /tweets/:id` and
`DELETE /tweets/:id`:
`{ _id: req.params.id, author: req.user._id, username: req.user.username }`
— the filter requires the denormalized username of the tweet to equal the
acting user's *current* username on top of the author match. -/
def findOwnedTweet (tweets : List Tweet) (tid uid : Nat) (uname : String) :
    Option Tweet :=
  tweets.find? (fun t => t.id == tid && t.author == uid && t.username == uname)

/-- A `PATCH /tweets/:id` request body: the three schema-allowed keys plus
the names of whatever other keys the body carries (`extra`). -/
structure TweetPatch where
  content : Option String
  pictures : Option (List String)
  videos : Option (List String)
  extra : List String
deriving DecidableEq, Repr

/-- `tweet[update] = req.body[update]` over the body; keys in `extra` are
outside the schema paths and are ignored by strict mode. -/
def applyTweetPatch (t : Tweet) (p : TweetPatch) : Tweet :=
  { t with
    content := (p.content.map strTrim).getD t.content,
    pictures := (p.pictures.map (fun l => l.map strTrim)).getD t.pictures,
    videos := (p.videos.map (fun l => l.map strTrim)).getD t.videos }

/-- Mongoose `save()` of a tweet document writes it back by `_id`. -/
def replaceTweet (tweets : List Tweet) (tid : Nat) (t1 : Tweet) : List Tweet :=
  tweets.map (fun t => if t.id == tid then t1 else t)

/-- `findOneAndDelete` removes the first document matching the filter. -/
def removeOwnedTweet (tweets : List Tweet) (tid uid : Nat) (uname : String) :
    List Tweet :=
  match tweets with
  | [] => []
  | t :: ts =>
      if t.id == tid && t.author == uid && t.username == uname then ts
      else t :: removeOwnedTweet ts tid uid uname

/-- `PATCH /tweets/:id`: the allow-list check sends `400` without returning
(execution continues), then the ownership-scoped `findOne`; absence —
including a stale denormalized username — is answered `404 Tweet not
found`; otherwise the body is applied and saved. -/
def updateTweetHandler (tweets : List Tweet) (tid uid : Nat) (uname : String)
    (p : TweetPatch) : Nat × List Tweet :=
  let err400 : Option Nat := if p.extra.isEmpty then none else some 400
  match findOwnedTweet tweets tid uid uname with
  | none => (err400.getD 404, tweets)
  | some t => (err400.getD 200, replaceTweet tweets t.id (applyTweetPatch t p))

/-- `DELETE /tweets/:id`: ownership-scoped `findOneAndDelete`; a miss —
including a stale denormalized username — is answered `404`. -/
def deleteTweetHandler (tweets : List Tweet) (tid uid : Nat) (uname : String) :
    Nat × List Tweet :=
  match findOwnedTweet tweets tid uid uname with
  | none => (404, tweets)
  | some _ => (200, removeOwnedTweet tweets tid uid uname)

/-- `tweet.comments[i].content = content`: in-place overwrite of the
content of the comment at index `i`. -/
def setContentAt (i : Nat) (content : String) : List Comment → List Comment
  | [] => []
  | c :: cs =>
      match i with
      | 0 => { c with content := content } :: cs
      | j + 1 => c :: setContentAt j content cs

/-- `PATCH /tweets/:tweetId/comments/:commentId`.  A missing tweet is
answered `404` (the handler keeps running but dereferencing `null` throws
before any write).  An acting user who is not the tweet's author hits
`throw new Error()`, caught as `500 Internal server error`.  A missing
comment id makes `findIndex` return `-1`: the handler sends `404`, and the
subsequent `tweet.comments[-1].content = ...` throws before `save()`, so
nothing is written. -/
def updateCommentHandler (tweets : List Tweet) (tid uid cid : Nat)
    (content : String) : Nat × List Tweet :=
  match tweets.find? (fun t => t.id == tid) with
  | none => (404, tweets)
  | some t =>
      if t.author != uid then (500, tweets)
      else
        match t.comments.findIdx? (fun c => c.id == cid) with
        | none => (404, tweets)
        | some i =>
            let cs := setContentAt i content t.comments
            (200, replaceTweet tweets t.id { t with comments := cs })

/-- `DELETE /tweets/:tweetId/comments/:commentId`.  Same lookup and
ownership check as the update.  On a missing comment id `findIndex`
returns `-1`, the handler sends `404` *and keeps going*:
`tweet.comments.splice(-1, 1)` removes the **last** comment of the tweet
and the following `save()` persists that removal. -/
def deleteCommentHandler (tweets : List Tweet) (tid uid cid : Nat) :
    Nat × List Tweet :=
  match tweets.find? (fun t => t.id == tid) with
  | none => (404, tweets)
  | some t =>
      if t.author != uid then (500, tweets)
      else
        match t.comments.findIdx? (fun c => c.id == cid) with
        | none =>
            (404, replaceTweet tweets t.id { t with comments := t.comments.dropLast })
        | some i =>
            (200, replaceTweet tweets t.id { t with comments := t.comments.eraseIdx i })

/-! ## Concrete fixtures used to exercise the handlers -/

/-- A comment by user 1 under user 2's tweet. -/
def cmt5 : Comment :=
  { id := 5, author := 1, username := "a", content := "hi", datetime := 1 }

/-- A comment by user 2 under user 1's tweet. -/
def cmt6 : Comment :=
  { id := 6, author := 2, username := "z", content := "yo", datetime := 2 }

/-- A tweet by user 1, carrying user 2's comment. -/
def tw10 : Tweet :=
  { id := 10, author := 1, username := "a", content := "t1", pictures := [],
    videos := [], comments := [cmt6], createdAt := 1 }

/-- A tweet by user 2, carrying user 1's comment. -/
def tw11 : Tweet :=
  { id := 11, author := 2, username := "z", content := "t2", pictures := [],
    videos := [], comments := [cmt5], createdAt := 2 }

/-- User 1, initially named `a`. -/
def usr1 : User :=
  { id := 1, username := "a", password := "hunter22aa", email := "a@x.io",
    tokens := [], avatar := none }

/-- User 2, named `z`. -/
def usr2 : User :=
  { id := 2, username := "z", password := "hunter22aa", email := "z@x.io",
    tokens := [], avatar := none }

/-- A two-user, two-tweet store with cross-authored comments. -/
def store0 : Store := { users := [usr1, usr2], tweets := [tw10, tw11] }

/-- `cmt5` after user 1 renames to `b`. -/
def cmt5b : Comment := { cmt5 with username := "b" }

/-- `tw11` after user 1 renames to `b`: the embedded comment follows. -/
def tw11b : Tweet := { tw11 with comments := [cmt5b] }

/-- A token of user 1 signed with the secret `"s"`. -/
def tok1 : AuthToken := { uid := 1, secret := "s" }

/-- User 1 with the session token `tok1` active. -/
def usr1t : User := { usr1 with tokens := [tok1] }

/-- A store in which `tok1` resolves to user 1. -/
def storeAuth : Store := { users := [usr1t, usr2], tweets := [] }

/-- Twelve tweets by one author with distinct creation instants. -/
def manyTweets : List Tweet :=
  (List.range 12).map fun i =>
    { id := i, author := 0, username := "u", content := "c", pictures := [],
      videos := [], comments := [], createdAt := i }

/-- A tweet of user 1 whose denormalized username (`"old"`) is stale with
respect to the author's current username (`"new"`). -/
def twStale : Tweet :=
  { id := 20, author := 1, username := "old", content := "s", pictures := [],
    videos := [], comments := [], createdAt := 0 }

/-- A tweet patch touching `content` only. -/
def patchContent : TweetPatch :=
  { content := some "edited", pictures := none, videos := none, extra := [] }

/-- An early comment (datetime 1) under user 3's tweet. -/
def cmtD1 : Comment :=
  { id := 701, author := 3, username := "w", content := "c1", datetime := 1 }

/-- A later comment (datetime 2) under user 3's tweet. -/
def cmtD2 : Comment :=
  { id := 702, author := 3, username := "w", content := "c2", datetime := 2 }

/-- User 3's tweet, storing the later comment first. -/
def tw30 : Tweet :=
  { id := 30, author := 3, username := "w", content := "t3", pictures := [],
    videos := [], comments := [cmtD2, cmtD1], createdAt := 0 }

/-! ## Lemmas about the Consistency Propagator -/

theorem commentRename_author (uid : Nat) (b : String) (c : Comment) :
    (commentRename uid b c).author = c.author := by
  unfold commentRename; split <;> rfl

theorem commentRename_idem (uid : Nat) (b : String) (c : Comment) :
    commentRename uid b (commentRename uid b c) = commentRename uid b c := by
  cases c with
  | mk id author username content datetime =>
      by_cases h : author = uid <;> simp [commentRename, h]

theorem commentRename_username_of_author (uid : Nat) (b : String) (c : Comment)
    (h : c.author = uid) : (commentRename uid b c).username = b := by
  cases c with
  | mk id author username content datetime =>
      simp_all [commentRename]

theorem tweetRename_author (uid : Nat) (b : String) (t : Tweet) :
    (tweetRename uid b t).author = t.author := by
  unfold tweetRename; split <;> rfl

theorem tweetRename_comments (uid : Nat) (b : String) (t : Tweet) :
    (tweetRename uid b t).comments = t.comments := by
  unfold tweetRename; split <;> rfl

theorem tweetRename_username_of_author (uid : Nat) (b : String) (t : Tweet)
    (h : t.author = uid) : (tweetRename uid b t).username = b := by
  cases t; simp_all [tweetRename]

theorem tweetCommentsRename_author (uid : Nat) (b : String) (t : Tweet) :
    (tweetCommentsRename uid b t).author = t.author := by
  unfold tweetCommentsRename; split <;> rfl

theorem tweetCommentsRename_username (uid : Nat) (b : String) (t : Tweet) :
    (tweetCommentsRename uid b t).username = t.username := by
  unfold tweetCommentsRename; split <;> rfl

theorem mem_comments_tweetCommentsRename (uid : Nat) (b : String) (t : Tweet)
    (c : Comment) (hc : c ∈ (tweetCommentsRename uid b t).comments)
    (ha : c.author = uid) : c.username = b := by
  unfold tweetCommentsRename at hc
  by_cases hg : t.comments.any (fun c => c.author == uid)
  · simp only [hg, if_pos] at hc
    simp only [List.mem_map] at hc
    obtain ⟨c0, _, rfl⟩ := hc
    apply commentRename_username_of_author
    rw [← commentRename_author uid b c0]; exact ha
  · simp [hg] at hc
    simp at hg
    exact absurd ha (hg c hc)

theorem any_author_map_commentRename (uid : Nat) (b : String) (l : List Comment) :
    ((l.map (commentRename uid b)).any (fun c => c.author == uid)) =
      (l.any (fun c => c.author == uid)) := by
  induction l with
  | nil => rfl
  | cons c cs ih => simp [List.any_cons, ih, commentRename_author]

theorem tweetCommentsRename_idem (uid : Nat) (b : String) (t : Tweet) :
    tweetCommentsRename uid b (tweetCommentsRename uid b t) =
      tweetCommentsRename uid b t := by
  cases t with
  | mk id author username content pictures videos comments createdAt =>
      by_cases hg : comments.any (fun c => c.author == uid)
      · simp [tweetCommentsRename, hg, any_author_map_commentRename,
          List.map_map, Function.comp, commentRename_idem]
      · simp [tweetCommentsRename, hg]

theorem tweetRename_idem (uid : Nat) (b : String) (t : Tweet) :
    tweetRename uid b (tweetRename uid b t) = tweetRename uid b t := by
  cases t with
  | mk id author username content pictures videos comments createdAt =>
      by_cases h : author = uid <;> simp [tweetRename, h]

theorem tweetRename_tweetCommentsRename_comm (uid : Nat) (b : String) (t : Tweet) :
    tweetRename uid b (tweetCommentsRename uid b t) =
      tweetCommentsRename uid b (tweetRename uid b t) := by
  cases t with
  | mk id author username content pictures videos comments createdAt =>
      by_cases hg : comments.any (fun c => c.author == uid) <;>
        by_cases h : author = uid <;>
          simp [tweetRename, tweetCommentsRename, hg, h]

theorem propagate_pointwise_idem (uid : Nat) (b : String) (t : Tweet) :
    tweetCommentsRename uid b (tweetRename uid b
        (tweetCommentsRename uid b (tweetRename uid b t))) =
      tweetCommentsRename uid b (tweetRename uid b t) := by
  rw [tweetRename_tweetCommentsRename_comm, tweetCommentsRename_idem,
    tweetRename_idem]

theorem mem_onUsernameChanged (uid : Nat) (b : String) (tweets : List Tweet)
    (t : Tweet) (ht : t ∈ onUsernameChanged uid b tweets) :
    (t.author = uid → t.username = b) ∧
    ∀ c ∈ t.comments, c.author = uid → c.username = b := by
  unfold onUsernameChanged at ht
  simp only [List.map_map, List.mem_map, Function.comp] at ht
  obtain ⟨t0, _, rfl⟩ := ht
  refine ⟨fun hA => ?_, fun c hc hca => ?_⟩
  · rw [tweetCommentsRename_author, tweetRename_author] at hA
    rw [tweetCommentsRename_username]
    exact tweetRename_username_of_author uid b t0 hA
  · exact mem_comments_tweetCommentsRename uid b (tweetRename uid b t0) c hc hca

theorem saveUser_tweets_of_valid (store : Store) (old u1 : User)
    (h : validateUser u1 = true) :
    (saveUser store old u1).store.tweets =
      if u1.username != old.username then
        onUsernameChanged old.id u1.username store.tweets
      else store.tweets := by
  unfold saveUser
  simp only [h, Bool.not_true, Bool.false_eq_true, if_false]
  split <;> rfl

theorem saveUser_not_ok_of_invalid (store : Store) (old u1 : User)
    (h : validateUser u1 = false) :
    saveUser store old u1 = ⟨false, store⟩ := by
  unfold saveUser
  simp [h]

/-! ## C3 -/

/-- C3: the Consistency Propagator's username rewrite is idempotent —
running `onUsernameChanged` twice over any tweets collection produces the
same final state as running it once. -/
theorem onUsernameChanged_idempotent (uid : Nat) (b : String)
    (tweets : List Tweet) :
    onUsernameChanged uid b (onUsernameChanged uid b tweets) =
      onUsernameChanged uid b tweets := by
  unfold onUsernameChanged
  simp only [List.map_map]
  apply List.map_congr_left
  intro t _
  simpa [Function.comp] using propagate_pointwise_idem uid b t

/-! ## C1 -/

/-- C1: when a profile update renames user `uid` from `a` to `b` and the
save completes successfully (status 200), every tweet in the resulting
store authored by `uid` carries username `b`, and every embedded comment
authored by `uid` in any tweet carries username `b`. -/
theorem rename_propagates_everywhere
    (store : Store) (uid : Nat) (patch : List (String × String)) (b : String)
    (u : User) (store' : Store) (t : Tweet) (c : Comment)
    (hu : findUser store.users uid = some u)
    (hb : (patch.foldl applyUserUpdate u).username = b)
    (hne : u.username ≠ b)
    (hrun : updateProfileHandler store uid patch = (200, store'))
    (ht : t ∈ store'.tweets) :
    (t.author = uid → t.username = b) ∧
    (c ∈ t.comments → c.author = uid → c.username = b) := by
  have hid : u.id = uid := by
    have := List.find?_some hu
    simpa using this
  unfold updateProfileHandler at hrun
  rw [hu] at hrun
  simp only at hrun
  set u1 := patch.foldl applyUserUpdate u with hu1
  by_cases hval :
      (patch.map Prod.fst).all (fun k => allowedUserUpdates.contains k)
  · simp only [hval, if_true, Option.getD] at hrun
    by_cases hok : (saveUser store u u1).ok
    · simp only [hok, if_true] at hrun
      have hst : store' = (saveUser store u u1).store := by
        exact (Prod.mk.injEq _ _ _ _ ▸ hrun).2.symm
      by_cases hv : validateUser u1
      · have htw := saveUser_tweets_of_valid store u u1 hv
        have hcond : (u1.username != u.username) = true := by
          rw [hb]
          simp only [bne_iff_ne, ne_eq, decide_not]
          simp only [decide_eq_true_eq] at *
          exact fun hcontra => hne hcontra.symm
        rw [if_pos hcond] at htw
        rw [hst, htw, hb] at ht
        have := mem_onUsernameChanged u.id b store.tweets t ht
        rw [hid] at this
        exact ⟨this.1, fun hc hca => this.2 c hc hca⟩
      · rw [saveUser_not_ok_of_invalid store u u1
          (Bool.eq_false_iff.mpr hv)] at hok
        simp at hok
    · simp only [hok, if_false] at hrun
      exact absurd (congrArg Prod.fst hrun) (by simp)
  · simp only [hval, if_false, Option.getD] at hrun
    exact absurd (congrArg Prod.fst hrun) (by simp)

/-- Witness for C1 at a concrete store: after user 1 renames from `a` to
`b`, the comment user 1 left under user 2's tweet carries username `b`. -/
theorem rename_propagates_everywhere_witness : cmt5b.username = "b" :=
  (rename_propagates_everywhere store0 1 [("username", "b")] "b" usr1
    ((updateProfileHandler store0 1 [("username", "b")]).2) tw11b cmt5b
    (by decide) (by decide) (by decide) (by decide) (by decide)).2
    (by decide) (by decide)

/-! ## C2 -/

/-- C2: deleting user `uid` removes exactly the tweets authored by `uid`;
every other user's tweet survives as the very same document, so a comment
by `uid` embedded in such a tweet still exists afterwards, carrying
`uid`'s last-known username (the comment value is untouched). -/
theorem delete_cascades_tweets_only
    (store : Store) (uid : Nat) (t : Tweet) (c : Comment) :
    (t ∈ (deleteUserHandler store uid).tweets → t.author ≠ uid ∧ t ∈ store.tweets) ∧
    (t ∈ store.tweets → t.author ≠ uid → t ∈ (deleteUserHandler store uid).tweets) ∧
    (t ∈ store.tweets → t.author ≠ uid → c ∈ t.comments →
      ∃ t', t' ∈ (deleteUserHandler store uid).tweets ∧ c ∈ t'.comments) := by
  unfold deleteUserHandler
  simp only [List.mem_filter]
  refine ⟨?_, ?_, ?_⟩
  · rintro ⟨hmem, hp⟩
    exact ⟨by simpa using hp, hmem⟩
  · intro hmem hne
    exact ⟨hmem, by simpa using hne⟩
  · intro hmem hne hc
    exact ⟨t, ⟨hmem, by simpa using hne⟩, hc⟩

/-- Witness for C2: deleting user 1 keeps user 2's tweet — and with it
user 1's embedded comment, still carrying username `a`. -/
theorem delete_cascades_tweets_only_witness :
    tw11 ∈ (deleteUserHandler store0 1).tweets :=
  (delete_cascades_tweets_only store0 1 tw11 cmt5).2.1 (by decide) (by decide)

/-! ## C4 -/

/-- C4 (code bug, flagged by the spec's §9 "validation-then-mutate
ordering bug"): `PATCH /users/me` with the body
`{ username: "b", bogus: "x" }` is answered
`400 Attempt to update invalid fields`, yet — the handler lacking an early
return — user 1 is still renamed to `b` and the rename propagated, so the
rejected request did mutate the store. -/
theorem profile_update_invalid_key_still_mutates :
    (updateProfileHandler store0 1 [("username", "b"), ("bogus", "x")]).1 = 400 ∧
    findUser (updateProfileHandler store0 1
        [("username", "b"), ("bogus", "x")]).2.users 1 =
      some { usr1 with username := "b" } := by
  decide

/-! ## C6 -/

theorem saveUser_ok_users (store : Store) (old u1 : User)
    (hok : (saveUser store old u1).ok = true) :
    (saveUser store old u1).store.users =
      store.users.map (fun v =>
        if v.id = old.id then
          (if u1.password != old.password then
            { u1 with password := bhash u1.password } else u1)
        else v) := by
  unfold saveUser at hok ⊢
  by_cases hv : validateUser u1
  · simp only [hv, Bool.not_true, Bool.false_eq_true, if_false]
    by_cases hdup :
        store.users.any (fun v => v.id != old.id && v.username == u1.username)
    · simp [hv, hdup] at hok
    · simp [hv, hdup]
  · simp [hv] at hok

/-- C6: the Authorization Gate resolves a bearer token only when the token
verifies against the signing secret AND the resolved user's `tokens` array
contains exactly that token; after a successful logout revoking the token,
the very same token — still cryptographically valid — no longer resolves
(`authMiddle` yields `none`, the `401 AuthUnresolved` response). -/
theorem token_resolution_requires_live_token
    (secret : String) (store : Store) (t : AuthToken) (u : User)
    (hres : authMiddle secret store.users t = some u) :
    (t.secret = secret ∧ u.id = t.uid ∧ u.tokens.contains t = true ∧
      u ∈ store.users) ∧
    ((logoutHandler store u t).1 = 200 →
      authMiddle secret (logoutHandler store u t).2.users t = none) := by
  by_cases hs : t.secret = secret
  · unfold authMiddle jwtVerify at hres
    simp only [hs, if_true] at hres
    have hpred := List.find?_some hres
    have hmem := List.mem_of_find?_eq_some hres
    simp only [Bool.and_eq_true, beq_iff_eq] at hpred
    refine ⟨⟨hs, hpred.1, hpred.2, hmem⟩, ?_⟩
    intro h200
    unfold logoutHandler at h200 ⊢
    set u1 : User := { u with tokens := u.tokens.filter (fun tk => tk != t) }
      with hu1
    by_cases hok : (saveUser store u u1).ok
    · simp only [hok, if_true]
      have husers := saveUser_ok_users store u u1 hok
      have hpw : (u1.password != u.password) = false := by
        rw [hu1]
        simp
      rw [hpw] at husers
      simp only [Bool.false_eq_true, if_false] at husers
      unfold authMiddle jwtVerify
      simp only [hs, if_true]
      rw [List.find?_eq_none]
      intro v' hv'
      rw [husers] at hv'
      simp only [List.mem_map] at hv'
      obtain ⟨v, hv, rfl⟩ := hv'
      by_cases hvid : v.id = u.id
      · simp only [hvid, if_true, if_false, Bool.false_eq_true]
        have hnot : ¬ t ∈ u1.tokens := by
          rw [hu1]
          simp
        simp only [Bool.and_eq_true, not_and, List.contains, List.elem_iff]
        intro _
        exact fun hmem' => hnot hmem'
      · simp only [hvid, if_false, Bool.false_eq_true]
        simp only [Bool.and_eq_true, beq_iff_eq, not_and]
        intro hveq
        exact absurd (hveq.trans hpred.1.symm) hvid
    · simp only [hok, if_false, Bool.false_eq_true] at h200
      exact absurd h200 (by decide)
  · unfold authMiddle jwtVerify at hres
    simp [hs] at hres

/-- Witness for C6: in the concrete store the token of user 1 resolves;
after the logout (status 200) the very same token no longer resolves. -/
theorem token_resolution_requires_live_token_witness :
    authMiddle "s" (logoutHandler storeAuth usr1t tok1).2.users tok1 = none :=
  (token_resolution_requires_live_token "s" storeAuth tok1 usr1t
    (by decide)).2 (by decide)

/-! ## C5 -/

/-- Counterexample to C5 as stated: user 2 — the author of comment 6 but
not the owner of tweet 10 — attempts to edit and to delete that comment.
The claim says a non-owner fails `Forbidden` (403, or 404 under the
spec's no-existence-leak surfacing), but the handlers' `throw new Error()`
lands in the generic catch and both respond `500 Internal server error`. -/
theorem comment_edit_nonowner_counterexample :
    (updateCommentHandler [tw10] 10 2 6 "x").1 = 500 ∧
    (updateCommentHandler [tw10] 10 2 6 "x").1 ≠ 403 ∧
    (updateCommentHandler [tw10] 10 2 6 "x").1 ≠ 404 ∧
    (deleteCommentHandler [tw10] 10 2 6).1 = 500 := by
  decide

/-- C5 (amended): `updateComment`/`deleteComment` succeed (200) only when
the acting user is the tweet's owner — the comment's own author has no
standing.  An absent tweet id is answered 404 with no change; a non-owner
is answered 500 (the generic internal error, not a distinct Forbidden),
with no change; an absent comment id is answered 404 — with no change on
update, while the delete variant additionally removes the tweet's *last*
comment (`splice(-1, 1)`) before responding. -/
theorem comment_mutation_owner_only
    (tweets : List Tweet) (tid uid cid : Nat) (content : String) :
    ((updateCommentHandler tweets tid uid cid content).1 = 200 →
      ∃ t, t ∈ tweets ∧ t.id = tid ∧ t.author = uid) ∧
    ((deleteCommentHandler tweets tid uid cid).1 = 200 →
      ∃ t, t ∈ tweets ∧ t.id = tid ∧ t.author = uid) ∧
    (tweets.find? (fun t => t.id == tid) = none →
      updateCommentHandler tweets tid uid cid content = (404, tweets) ∧
      deleteCommentHandler tweets tid uid cid = (404, tweets)) ∧
    (∀ t, tweets.find? (fun t => t.id == tid) = some t → t.author ≠ uid →
      updateCommentHandler tweets tid uid cid content = (500, tweets) ∧
      deleteCommentHandler tweets tid uid cid = (500, tweets)) ∧
    (∀ t, tweets.find? (fun t => t.id == tid) = some t → t.author = uid →
      t.comments.findIdx? (fun c => c.id == cid) = none →
      updateCommentHandler tweets tid uid cid content = (404, tweets) ∧
      deleteCommentHandler tweets tid uid cid =
        (404, replaceTweet tweets t.id { t with comments := t.comments.dropLast })) := by
  refine ⟨?_, ?_, ?_, ?_, ?_⟩
  · intro h200
    unfold updateCommentHandler at h200
    cases hf : tweets.find? (fun t => t.id == tid) with
    | none => rw [hf] at h200; simp at h200
    | some t =>
        rw [hf] at h200
        dsimp only at h200
        by_cases hA : (t.author != uid) = true
        · rw [if_pos hA] at h200; simp at h200
        · have hAu : t.author = uid := by simpa using hA
          have hid : t.id = tid := by simpa using List.find?_some hf
          exact ⟨t, List.mem_of_find?_eq_some hf, hid, hAu⟩
  · intro h200
    unfold deleteCommentHandler at h200
    cases hf : tweets.find? (fun t => t.id == tid) with
    | none => rw [hf] at h200; simp at h200
    | some t =>
        rw [hf] at h200
        dsimp only at h200
        by_cases hA : (t.author != uid) = true
        · rw [if_pos hA] at h200; simp at h200
        · have hAu : t.author = uid := by simpa using hA
          have hid : t.id = tid := by simpa using List.find?_some hf
          exact ⟨t, List.mem_of_find?_eq_some hf, hid, hAu⟩
  · intro hf
    constructor <;> simp [updateCommentHandler, deleteCommentHandler, hf]
  · intro t hf hne
    have hA : (t.author != uid) = true := by simpa using hne
    constructor <;> simp [updateCommentHandler, deleteCommentHandler, hf, hA]
  · intro t hf hAu hidx
    have hA : (t.author != uid) = false := by simpa using hAu
    constructor <;>
      simp [updateCommentHandler, deleteCommentHandler, hf, hA, hidx]

/-- Witness for C5 (amended) at a concrete store: the tweet owner deletes
a comment id that does not exist — the response is 404, and the tweet's
last comment has nevertheless been removed and saved. -/
theorem comment_mutation_owner_only_witness :
    deleteCommentHandler [tw10] 10 1 999 =
      (404, replaceTweet [tw10] tw10.id { tw10 with comments := tw10.comments.dropLast }) :=
  ((comment_mutation_owner_only [tw10] 10 1 999 "x").2.2.2.2 tw10
    (by decide) (by decide) (by decide)).2

/-! ## C7 -/

/-- C7 (code bug): `GET /tweets/:tweetId/comments?sortByOrder=desc` on a
tweet whose comments have datetimes 2 and 1 (stored in that order) returns
them sorted *ascending* — the handler reads `req.params.sortByOrder`,
which is always `undefined` on this route, so the requested descending
order is silently ignored. -/
theorem comments_desc_request_sorted_ascending :
    listCommentsHandler [tw30] 30 (some "desc") none none =
      (200, [some cmtD1, some cmtD2]) := by
  decide

/-! ## C8 -/

theorem mem_insertLe {α : Type} (le : α → α → Bool) (x y : α) (l : List α) :
    y ∈ insertLe le x l ↔ y = x ∨ y ∈ l := by
  induction l with
  | nil => simp [insertLe]
  | cons z zs ih =>
      by_cases h : le x z = true
      · simp [insertLe, h]
      · simp only [insertLe, h, Bool.false_eq_true, if_false, List.mem_cons, ih]
        tauto

theorem pairwise_insertLe {α : Type} (le : α → α → Bool)
    (htot : ∀ a b, le a b = true ∨ le b a = true)
    (htrans : ∀ a b c, le a b = true → le b c = true → le a c = true)
    (x : α) (l : List α)
    (hl : l.Pairwise (fun a b => le a b = true)) :
    (insertLe le x l).Pairwise (fun a b => le a b = true) := by
  induction l with
  | nil => simp [insertLe]
  | cons z zs ih =>
      rcases List.pairwise_cons.mp hl with ⟨hz, hzs⟩
      by_cases h : le x z = true
      · simp only [insertLe, h, if_true]
        refine List.pairwise_cons.mpr ⟨?_, hl⟩
        intro y hy
        rcases List.mem_cons.mp hy with rfl | hy'
        · exact h
        · exact htrans x z y h (hz y hy')
      · have hzx : le z x = true := (htot x z).resolve_left h
        simp only [insertLe, h, Bool.false_eq_true, if_false]
        refine List.pairwise_cons.mpr ⟨?_, ih hzs⟩
        intro y hy
        rcases (mem_insertLe le x y zs).mp hy with rfl | hy'
        · exact hzx
        · exact hz y hy'

theorem sortLe_pairwise {α : Type} (le : α → α → Bool)
    (htot : ∀ a b, le a b = true ∨ le b a = true)
    (htrans : ∀ a b c, le a b = true → le b c = true → le a c = true)
    (l : List α) :
    (sortLe le l).Pairwise (fun a b => le a b = true) := by
  induction l with
  | nil => simp [sortLe]
  | cons x xs ih => exact pairwise_insertLe le htot htrans x _ ih

/-- Counterexample to C8 as stated: with twelve stored tweets and the
query `?limit=-5`, the claim says the effective limit falls back to 10
(the limit being non-positive), but `parseInt("-5") = -5` is truthy, the
`|| 10` fallback does not trigger, and the store returns 5 documents. -/
theorem negative_limit_passes_through_counterexample :
    (listTweetsHandler manyTweets none none (some (-5)) none).length = 5 ∧
    orDefault (some (-5)) 10 = -5 := by
  decide

/-- C8 (amended): without a `sortBy` query the result of `GET /tweets` is
ordered by creation time descending; the effective limit falls back to 10
when the requested one is absent, non-numeric (`NaN`) or zero — a negative
numeric limit is *not* replaced (it passes through to the store, `|| 10`
only reacting to falsy values); skip defaults to 0 when absent. -/
theorem listTweets_default_sort_and_limits
    (tweets : List Tweet) (limitQ skipQ : Option Int) :
    (listTweetsHandler tweets none none limitQ skipQ).Pairwise
      (fun a b => b.createdAt ≤ a.createdAt) ∧
    (limitQ = none ∨ limitQ = some 0 → orDefault limitQ 10 = 10) ∧
    (∀ n : Int, n ≠ 0 → orDefault (some n) 10 = n) ∧
    (skipQ = none → orDefault skipQ 0 = 0) := by
  refine ⟨?_, ?_, ?_, ?_⟩
  · have hsorted := sortLe_pairwise (tweetKeyLe "createdAt" (-1))
      (fun a b => by
        simp only [tweetKeyLe, if_pos rfl, if_true, decide_eq_true_eq]
        exact Nat.le_total b.createdAt a.createdAt)
      (fun a b c hab hbc => by
        simp only [tweetKeyLe, if_pos rfl, if_true, decide_eq_true_eq] at *
        exact le_trans hbc hab)
      tweets
    have h1 : (sortLe (tweetKeyLe "createdAt" (-1)) tweets).Pairwise
        (fun a b => b.createdAt ≤ a.createdAt) := by
      apply hsorted.imp
      intro a b h
      simpa [tweetKeyLe] using h
    unfold listTweetsHandler sortSpecOf mongoWindow
    dsimp only
    exact h1.sublist ((List.take_sublist _ _).trans (List.drop_sublist _ _))
  · rintro (rfl | rfl) <;> simp [orDefault]
  · intro n hn
    simp [orDefault, hn]
  · rintro rfl
    simp [orDefault]

/-- Witness for C8 (amended): a requested limit of zero falls back to 10. -/
theorem listTweets_default_sort_and_limits_witness : orDefault (some 0) 10 = 10 :=
  (listTweets_default_sort_and_limits [] (some 0) none).2.1 (Or.inr rfl)

/-! ## C9 -/

/-- C9: the ownership-scoped lookup of `PATCH /tweets/:id` and
`DELETE /tweets/:id` matches a tweet only when, besides `author` equalling
the acting user's id, the tweet's denormalized `username` equals the
acting user's *current* username; consequently, when every tweet carrying
the requested id is stale (authored by the actor but with an out-of-sync
username), both handlers answer `404 Tweet not found` and change
nothing — even for the tweet's own author. -/
theorem stale_username_hides_tweet
    (tweets : List Tweet) (tid uid : Nat) (uname : String) :
    (∀ t, findOwnedTweet tweets tid uid uname = some t →
      t.id = tid ∧ t.author = uid ∧ t.username = uname) ∧
    ((∀ t, t ∈ tweets → t.id = tid → t.author = uid → t.username ≠ uname) →
      deleteTweetHandler tweets tid uid uname = (404, tweets) ∧
      ∀ p : TweetPatch, p.extra = [] →
        updateTweetHandler tweets tid uid uname p = (404, tweets)) := by
  constructor
  · intro t hfind
    have hpred := List.find?_some hfind
    simp only [Bool.and_eq_true, beq_iff_eq] at hpred
    exact ⟨hpred.1.1, hpred.1.2, hpred.2⟩
  · intro hstale
    have hnone : findOwnedTweet tweets tid uid uname = none := by
      unfold findOwnedTweet
      rw [List.find?_eq_none]
      intro t ht
      simp only [Bool.and_eq_true, beq_iff_eq]
      rintro ⟨⟨h1, h2⟩, h3⟩
      exact hstale t ht h1 h2 h3
    constructor
    · unfold deleteTweetHandler
      rw [hnone]
    · intro p hp
      unfold updateTweetHandler
      rw [hnone]
      simp [hp]

/-- Witness for C9: user 1's own tweet with the stale denormalized
username `old` is reported 404 on deletion once the author's current
username is `new`. -/
theorem stale_username_hides_tweet_witness :
    deleteTweetHandler [twStale] 20 1 "new" = (404, [twStale]) :=
  ((stale_username_hides_tweet [twStale] 20 1 "new").2 (by decide)).1

/-! ## C10 -/

theorem validateUser_false_of_short (u : User) (h : u.password.length < 8) :
    validateUser u = false := by
  unfold validateUser
  have hd : decide (8 ≤ u.password.length) = false :=
    decide_eq_false (Nat.not_le.mpr h)
  simp [hd]

/-- Counterexample to C10 as stated: a password update whose trimmed
plaintext is shorter than 8 characters does fail the schema's `minLength`
validation, but `PATCH /users/me` surfaces the save error as
`500 Internal server error`, not as the claimed validation error 400 (and
leaves the store unchanged). -/
theorem short_password_update_counterexample :
    (updateProfileHandler store0 1 [("password", "short")]).1 = 500 ∧
    (updateProfileHandler store0 1 [("password", "short")]).1 ≠ 400 ∧
    (updateProfileHandler store0 1 [("password", "short")]).2 = store0 := by
  decide

/-- C10 (amended): a registration whose trimmed password has fewer than 8
characters fails with 400 (even when the password avoids the substring
`password` and all other fields are valid — the schema's `minLength: 8`,
unstated by the spec); a profile update setting such a password also fails
the same minimum-length validation and leaves the store unchanged, but its
handler surfaces the failure as 500. -/
theorem short_password_minlength
    (store : Store) (uid : Nat) (secret : String) (uname pw email : String)
    (u : User)
    (hshort : (strTrim pw).length < 8)
    (hu : findUser store.users uid = some u) :
    (registerHandler store uid secret uname pw email).1 = 400 ∧
    updateProfileHandler store uid [("password", pw)] = (500, store) := by
  constructor
  · unfold registerHandler
    have hval : validateUser
        { id := uid, username := strTrim uname, password := strTrim pw,
          email := strToLower (strTrim email), tokens := [],
          avatar := none } = false :=
      validateUser_false_of_short _ hshort
    simp [hval]
  · unfold updateProfileHandler
    rw [hu]
    dsimp only
    have hvalid : (List.map Prod.fst [("password", pw)]).all
        (fun k => allowedUserUpdates.contains k) = true := rfl
    have hsave : saveUser store u
        (List.foldl applyUserUpdate u [("password", pw)]) = ⟨false, store⟩ := by
      have hfold : List.foldl applyUserUpdate u [("password", pw)] =
          { u with password := strTrim pw } := rfl
      rw [hfold]
      exact saveUser_not_ok_of_invalid store u _
        (validateUser_false_of_short _ (by simpa using hshort))
    rw [hvalid, hsave]
    simp

/-- Witness for C10 (amended): registering with the 4-character password
`tiny` is rejected with 400. -/
theorem short_password_minlength_witness :
    (registerHandler store0 1 "s" "carl" "tiny" "c@x.io").1 = 400 :=
  (short_password_minlength store0 1 "s" "carl" "tiny" "c@x.io" usr1
    (by decide) (by decide)).1

end XApi
